import Mathlib

/-!
Verification of the local-first dual-store synchronization layer of the
tv-tracker-series repository: the status-partitioned local cache and its
operations (`src/store/mediaStore.ts`, shipped in `src/types/Database.ts`
after the generated table types) and the two-flag initialization gate of
the application store (`appStore`).

Modelling conventions of this shallow embedding:

* TypeScript numbers are embedded as `Int`; nullable and optional fields as
  `Option`.  String payloads (titles, timestamps, error messages) are `String`.
* The browser storage cell is modelled at the parsed level as a
  `UserMediaStore`; the raw serialized level (absent / corrupt / readable
  payload) is modelled separately for the `getLocalStore` corruption claim.
* Each remote (Supabase) call is a suspension point whose outcome is passed to
  the operation as an explicit `Except String _` argument; a thrown rejection
  is `Except.error e`.  A function that can throw to its caller returns its
  thrown error in the `thrown` field of its outcome; totality of the Lean
  functions embeds the fact that all other failure paths are caught.
* `console.warn` messages and the `mediaStoreUpdate` change event dispatched by
  `saveLocalStore` are recorded in the operation outcome (`warning` field,
  `events` counter) so that claims about reporting and about notifications not
  firing are statable.
* The nondeterministic surrogate id `Date.now() + Math.random()` assigned by
  `supabaseToMediaItem` is embedded as a value drawn from an explicit generator
  `gen : Nat → Int` indexed by the conversion count of the enclosing call.
-/

/-- The `media_type` column and `MediaType` app type: `movie` or `tv`. -/
inductive MediaType where
  | movie
  | tv
deriving DecidableEq, Repr

/-- The `status` column and `WatchStatus` app type. -/
inductive WatchStatus where
  | want_to_watch
  | watching
  | completed
deriving DecidableEq, Repr

/-- `MediaItem` from `src/types/Media.ts`: one entry of the local cache. -/
structure MediaItem where
  id : Int
  tmdbId : Int
  title : String
  mediaType : MediaType
  posterPath : Option String
  releaseYear : String
  rating : Int
  status : WatchStatus
  addedAt : String
  currentSeason : Option Int := none
  currentEpisode : Option Int := none
  overview : Option String := none
  runtime : Option Int := none
  numberOfSeasons : Option Int := none
  numberOfEpisodes : Option Int := none
deriving DecidableEq, Repr

/-- `UserMediaStore`: the three status partitions of the local cache. -/
structure UserMediaStore where
  want_to_watch : List MediaItem
  watching : List MediaItem
  completed : List MediaItem
deriving DecidableEq, Repr

/-- The `emptyStore` constant of `mediaStore.ts`. -/
def emptyStore : UserMediaStore :=
  { want_to_watch := [], watching := [], completed := [] }

/-- Indexing `store[status]`. -/
def UserMediaStore.get (s : UserMediaStore) : WatchStatus → List MediaItem
  | .want_to_watch => s.want_to_watch
  | .watching => s.watching
  | .completed => s.completed

/-- Assignment `store[status] = l`. -/
def UserMediaStore.set (s : UserMediaStore) : WatchStatus → List MediaItem → UserMediaStore
  | .want_to_watch, l => { s with want_to_watch := l }
  | .watching, l => { s with watching := l }
  | .completed, l => { s with completed := l }

/-- The key comparison used throughout `mediaStore.ts`:
`i.tmdbId === tmdbId && i.mediaType === mediaType`. -/
def keyMatches (tmdbId : Int) (mediaType : MediaType) (i : MediaItem) : Bool :=
  i.tmdbId == tmdbId && i.mediaType == mediaType

/-- The identity key of an item: the pair `(tmdbId, mediaType)`. -/
def itemKey (i : MediaItem) : Int × MediaType :=
  (i.tmdbId, i.mediaType)

/-- The flattening `[...store.want_to_watch, ...store.watching, ...store.completed]`. -/
def allItems (s : UserMediaStore) : List MediaItem :=
  s.want_to_watch ++ s.watching ++ s.completed

/-- The identity keys present in the local cache, one per stored item. -/
def storeKeys (s : UserMediaStore) : List (Int × MediaType) :=
  (allItems s).map itemKey

/-- `getLocalStore`, at the serialized payload level.  `payload` is the raw
string under the storage key (`none` when `localStorage.getItem` returns
null), and `parse` is `JSON.parse` specialised to the store shape, returning
`none` exactly when parsing throws.  The `try/catch` in the source makes the
read total: an unreadable payload degrades to the empty store instead of
propagating the parse error. -/
def getLocalStore (parse : String → Option UserMediaStore)
    (payload : Option String) : UserMediaStore :=
  match payload with
  | none => emptyStore
  | some raw =>
    match parse raw with
    | none => emptyStore
    | some store => store

/-- The browser-side state a coordinator operation acts on: the parsed content
of the storage cell plus the number of `mediaStoreUpdate` change events
dispatched so far. -/
structure LocalState where
  store : UserMediaStore
  events : Nat
deriving DecidableEq, Repr

/-- `saveLocalStore`: persist the store and dispatch the change event. -/
def saveLocalStore (store : UserMediaStore) (s : LocalState) : LocalState :=
  { store := store, events := s.events + 1 }

/-- Observable outcome of one coordinator operation: the error it rethrows to
its caller (if any), the `console.warn` message it logs (if any), the local
state afterwards, and whether the remote repository was called. -/
structure Outcome where
  thrown : Option String
  warning : Option String
  state : LocalState
  remoteCalled : Bool
deriving DecidableEq, Repr

/-- The local-cache phase of `addToList` (everything after the remote step):
duplicate check over all three partitions, then push into the partition of
`item.status` and save. -/
def addToListLocalPhase (item : MediaItem) (s : LocalState)
    (remoteCalled : Bool) : Outcome :=
  let store := s.store
  if (allItems store).any (keyMatches item.tmdbId item.mediaType) then
    { thrown := none, warning := some "Item already in list",
      state := s, remoteCalled := remoteCalled }
  else
    { thrown := none, warning := none,
      state := saveLocalStore (store.set item.status (store.get item.status ++ [item])) s,
      remoteCalled := remoteCalled }

/-- `addToList item`.  `remoteAdd` is the outcome of the
`userMediaService.addUserMedia` call, consulted only when `loggedIn`; its
rejection is rethrown before the local phase runs. -/
def addToList (loggedIn : Bool) (remoteAdd : Except String Unit)
    (item : MediaItem) (s : LocalState) : Outcome :=
  if loggedIn then
    match remoteAdd with
    | .error e => { thrown := some e, warning := none, state := s, remoteCalled := true }
    | .ok _ => addToListLocalPhase item s true
  else
    addToListLocalPhase item s false

/-- The local-cache phase of `removeFromList`: filter the key out of all three
partitions and save. -/
def removeFromListLocalPhase (tmdbId : Int) (mediaType : MediaType)
    (s : LocalState) (remoteCalled : Bool) : Outcome :=
  let store := s.store
  let store1 : UserMediaStore :=
    { want_to_watch := store.want_to_watch.filter (fun i => !(keyMatches tmdbId mediaType i)),
      watching := store.watching.filter (fun i => !(keyMatches tmdbId mediaType i)),
      completed := store.completed.filter (fun i => !(keyMatches tmdbId mediaType i)) }
  { thrown := none, warning := none,
    state := saveLocalStore store1 s, remoteCalled := remoteCalled }

/-- `removeFromList tmdbId mediaType`. -/
def removeFromList (loggedIn : Bool) (remoteRemove : Except String Unit)
    (tmdbId : Int) (mediaType : MediaType) (s : LocalState) : Outcome :=
  if loggedIn then
    match remoteRemove with
    | .error e => { thrown := some e, warning := none, state := s, remoteCalled := true }
    | .ok _ => removeFromListLocalPhase tmdbId mediaType s true
  else
    removeFromListLocalPhase tmdbId mediaType s false

/-- The search loop `for (const status of [want_to_watch, watching, completed])`
shared by `updateStatus`, `getItemStatus` and `updateProgress`: the first
partition (in declaration order) holding the key, with the item found there. -/
def findInStore (store : UserMediaStore) (tmdbId : Int) (mediaType : MediaType) :
    Option (WatchStatus × MediaItem) :=
  match store.want_to_watch.find? (keyMatches tmdbId mediaType) with
  | some i => some (.want_to_watch, i)
  | none =>
    match store.watching.find? (keyMatches tmdbId mediaType) with
    | some i => some (.watching, i)
    | none =>
      match store.completed.find? (keyMatches tmdbId mediaType) with
      | some i => some (.completed, i)
      | none => none

/-- The local-cache phase of `updateStatus`: locate the key, remove it from the
partition where it was found, retag the found item with the new status, push it
into the target partition and save; warn and leave everything unchanged when
the key is absent from every partition. -/
def updateStatusLocalPhase (tmdbId : Int) (mediaType : MediaType)
    (newStatus : WatchStatus) (s : LocalState) (remoteCalled : Bool) : Outcome :=
  match findInStore s.store tmdbId mediaType with
  | none =>
    { thrown := none, warning := some "Item not found in any list",
      state := s, remoteCalled := remoteCalled }
  | some (st, item) =>
    let store1 := s.store.set st ((s.store.get st).filter (fun i => !(keyMatches tmdbId mediaType i)))
    let item1 := { item with status := newStatus }
    let store2 := store1.set newStatus (store1.get newStatus ++ [item1])
    { thrown := none, warning := none,
      state := saveLocalStore store2 s, remoteCalled := remoteCalled }

/-- `updateStatus tmdbId mediaType newStatus`. -/
def updateStatus (loggedIn : Bool) (remoteUpdate : Except String Unit)
    (tmdbId : Int) (mediaType : MediaType) (newStatus : WatchStatus)
    (s : LocalState) : Outcome :=
  if loggedIn then
    match remoteUpdate with
    | .error e => { thrown := some e, warning := none, state := s, remoteCalled := true }
    | .ok _ => updateStatusLocalPhase tmdbId mediaType newStatus s true
  else
    updateStatusLocalPhase tmdbId mediaType newStatus s false

/-- Replace the first item matching `p` by `f` applied to it; this models the
in-place mutation of the object reference returned by `Array.prototype.find`. -/
def updateFirst (p : MediaItem → Bool) (f : MediaItem → MediaItem) :
    List MediaItem → List MediaItem
  | [] => []
  | i :: rest => if p i then f i :: rest else i :: updateFirst p f rest

/-- The local-cache phase of `updateProgress`: find the item across the
partitions, set its progress fields in place and save; warn and leave the
state unchanged when the key is absent. -/
def updateProgressLocalPhase (tmdbId : Int) (mediaType : MediaType)
    (currentSeason currentEpisode : Int) (s : LocalState)
    (remoteCalled : Bool) : Outcome :=
  match findInStore s.store tmdbId mediaType with
  | none =>
    { thrown := none, warning := some "Item not found for progress update",
      state := s, remoteCalled := remoteCalled }
  | some (st, _) =>
    let store1 := s.store.set st
      (updateFirst (keyMatches tmdbId mediaType)
        (fun i => { i with currentSeason := some currentSeason,
                           currentEpisode := some currentEpisode })
        (s.store.get st))
    { thrown := none, warning := none,
      state := saveLocalStore store1 s, remoteCalled := remoteCalled }

/-- `updateProgress tmdbId mediaType currentSeason currentEpisode`.  The guard
`mediaType !== tv` is checked before anything else, in particular before the
session check and the remote call. -/
def updateProgress (loggedIn : Bool) (remoteProgress : Except String Unit)
    (tmdbId : Int) (mediaType : MediaType) (currentSeason currentEpisode : Int)
    (s : LocalState) : Outcome :=
  if mediaType != .tv then
    { thrown := none, warning := some "Progress tracking is only for TV series",
      state := s, remoteCalled := false }
  else if loggedIn then
    match remoteProgress with
    | .error e => { thrown := some e, warning := none, state := s, remoteCalled := true }
    | .ok _ => updateProgressLocalPhase tmdbId mediaType currentSeason currentEpisode s true
  else
    updateProgressLocalPhase tmdbId mediaType currentSeason currentEpisode s false

/-- The columns of a `user_media` row that `supabaseToMediaItem` reads. -/
structure UserMediaRow where
  tmdb_id : Int
  title : String
  media_type : MediaType
  poster_path : Option String
  release_year : String
  rating : Int
  status : WatchStatus
  created_at : String
  current_season : Option Int
  current_episode : Option Int
  overview : Option String
  runtime : Option Int
  number_of_seasons : Option Int
  number_of_episodes : Option Int
deriving DecidableEq, Repr

/-- The identity key carried by a remote row. -/
def rowKey (r : UserMediaRow) : Int × MediaType :=
  (r.tmdb_id, r.media_type)

/-- `supabaseToMediaItem row`, with the nondeterministic surrogate id
`Date.now() + Math.random()` passed in explicitly as `idVal`. -/
def supabaseToMediaItem (idVal : Int) (row : UserMediaRow) : MediaItem :=
  { id := idVal,
    tmdbId := row.tmdb_id,
    title := row.title,
    mediaType := row.media_type,
    posterPath := row.poster_path,
    releaseYear := row.release_year,
    rating := row.rating,
    status := row.status,
    addedAt := row.created_at,
    currentSeason := row.current_season,
    currentEpisode := row.current_episode,
    overview := row.overview,
    runtime := row.runtime,
    numberOfSeasons := row.number_of_seasons,
    numberOfEpisodes := row.number_of_episodes }

/-- The `media.forEach(row => store[item.status].push(item))` accumulation of
`loadFromSupabase`, carried out from an explicit accumulator; `n` counts the
conversions already performed, so that `gen n` is the surrogate id of the next
converted row. -/
def partitionRowsAux (gen : Nat → Int) (n : Nat) :
    List UserMediaRow → UserMediaStore → UserMediaStore
  | [], store => store
  | row :: rest, store =>
    let item := supabaseToMediaItem (gen n) row
    partitionRowsAux gen (n + 1) rest (store.set item.status (store.get item.status ++ [item]))

/-- The fresh status-partitioned store `loadFromSupabase` builds from the
fetched rows, starting from an empty store. -/
def partitionRows (gen : Nat → Int) (rows : List UserMediaRow) : UserMediaStore :=
  partitionRowsAux gen 0 rows emptyStore

/-- `loadFromSupabase`.  `fetchAll` is the outcome of `getAllUserMedia()`; a
fetch failure is caught and logged inside the function (nothing is rethrown),
leaving the local state untouched, and an unauthenticated call returns before
doing anything. -/
def loadFromSupabase (loggedIn : Bool) (fetchAll : Except String (List UserMediaRow))
    (gen : Nat → Int) (s : LocalState) : LocalState :=
  if loggedIn then
    match fetchAll with
    | .error _ => s
    | .ok rows => saveLocalStore (partitionRows gen rows) s
  else s

/-- The insert payload produced by `mediaItemToSupabase` (no `created_at`:
that column is assigned by the remote table). -/
structure UserMediaInsert where
  tmdb_id : Int
  media_type : MediaType
  status : WatchStatus
  current_season : Option Int
  current_episode : Option Int
  title : String
  poster_path : Option String
  release_year : String
  rating : Int
  overview : Option String
  runtime : Option Int
  number_of_seasons : Option Int
  number_of_episodes : Option Int
deriving DecidableEq, Repr

/-- `mediaItemToSupabase item`. -/
def mediaItemToSupabase (item : MediaItem) : UserMediaInsert :=
  { tmdb_id := item.tmdbId,
    media_type := item.mediaType,
    status := item.status,
    current_season := item.currentSeason,
    current_episode := item.currentEpisode,
    title := item.title,
    poster_path := item.posterPath,
    release_year := item.releaseYear,
    rating := item.rating,
    overview := item.overview,
    runtime := item.runtime,
    number_of_seasons := item.numberOfSeasons,
    number_of_episodes := item.numberOfEpisodes }

/-- How the remote table completes an accepted insert into a stored row
(`created_at` is assigned server-side). -/
def insertToRow (created_at : String) (p : UserMediaInsert) : UserMediaRow :=
  { tmdb_id := p.tmdb_id,
    title := p.title,
    media_type := p.media_type,
    poster_path := p.poster_path,
    release_year := p.release_year,
    rating := p.rating,
    status := p.status,
    created_at := created_at,
    current_season := p.current_season,
    current_episode := p.current_episode,
    overview := p.overview,
    runtime := p.runtime,
    number_of_seasons := p.number_of_seasons,
    number_of_episodes := p.number_of_episodes }

/-- Observable outcome of `migrateGuestDataToSupabase`: the returned count, the
insert payloads attempted against the remote table in order, the remote table
content after the per-item loop, whether the re-hydrating fetch ran, and the
final local state. -/
structure MigrationOutcome where
  migrated : Nat
  attempted : List UserMediaInsert
  remoteRows : List UserMediaRow
  fetched : Bool
  state : LocalState
deriving Repr

/-- One step of the per-item migration loop: an accepted insert appends a
completed row to the remote table and bumps `migratedCount`; a rejected insert
is caught, logged and skipped. -/
def migrationStep (accepts : MediaItem → Bool) (createdAt : Nat → String)
    (acc : Nat × List UserMediaRow) (item : MediaItem) : Nat × List UserMediaRow :=
  if accepts item then
    (acc.1 + 1, acc.2 ++ [insertToRow (createdAt acc.2.length) (mediaItemToSupabase item)])
  else acc

/-- `migrateGuestDataToSupabase`.  The remote repository is modelled as a
consistent table: `initialRows` is its content before migration, `accepts` the
per-item insert failure pattern, each accepted insert appends a row completed
with a server `createdAt` timestamp, and the re-hydrating fetch of the final
`loadFromSupabase()` call returns the accumulated table.  `gen` is the
surrogate id generator of that final call.  Throws only when called while
unauthenticated. -/
def migrateGuestDataToSupabase (loggedIn : Bool) (accepts : MediaItem → Bool)
    (initialRows : List UserMediaRow) (createdAt : Nat → String) (gen : Nat → Int)
    (s : LocalState) : Except String MigrationOutcome :=
  if !loggedIn then
    .error "User must be logged in to migrate data"
  else
    let allGuestItems := allItems s.store
    if allGuestItems.length = 0 then
      .ok { migrated := 0, attempted := [], remoteRows := initialRows,
            fetched := false, state := s }
    else
      let final := allGuestItems.foldl (migrationStep accepts createdAt) (0, initialRows)
      .ok { migrated := final.1,
            attempted := allGuestItems.map mediaItemToSupabase,
            remoteRows := final.2,
            fetched := true,
            state := loadFromSupabase true (.ok final.2) gen s }

/-- An operation issued against the coordinator while unauthenticated, for the
guest-mode partition invariant: the remote branch of each operation is skipped,
so only the identity key, status and payload of the arguments matter. -/
inductive GuestOp where
  | add (item : MediaItem)
  | remove (tmdbId : Int) (mediaType : MediaType)
  | setStatus (tmdbId : Int) (mediaType : MediaType) (newStatus : WatchStatus)
deriving DecidableEq, Repr

/-- Apply one guest operation to the cached store, through the real coordinator
operations with `loggedIn = false` (the remote outcome argument is never
consulted on this path). -/
def applyGuestOp (store : UserMediaStore) : GuestOp → UserMediaStore
  | .add item =>
    ((addToList false (.ok ()) item { store := store, events := 0 }).state).store
  | .remove t m =>
    ((removeFromList false (.ok ()) t m { store := store, events := 0 }).state).store
  | .setStatus t m ns =>
    ((updateStatus false (.ok ()) t m ns { store := store, events := 0 }).state).store

/-- Run a sequence of guest operations starting from the empty collection. -/
def runGuest (ops : List GuestOp) : UserMediaStore :=
  ops.foldl applyGuestOp emptyStore

/-- Characteristic function of the set of identity keys added and not
subsequently removed by a prefix of guest operations: an add marks its key
present, a remove marks its key absent, a status change touches no key. -/
def trackKey (present : (Int × MediaType) → Bool) : GuestOp → (Int × MediaType) → Bool
  | .add item, k => if itemKey item = k then true else present k
  | .remove t m, k => if (t, m) = k then false else present k
  | .setStatus _ _ _, k => present k

/-- The set of identity keys added and not subsequently removed by `ops`. -/
def addedNotRemoved (ops : List GuestOp) : (Int × MediaType) → Bool :=
  ops.foldl trackKey (fun _ => false)

/-- Number of items of `l` carrying the identity key `k`. -/
def countKey (l : List MediaItem) (k : Int × MediaType) : Nat :=
  l.countP (keyMatches k.1 k.2)

/-- Number of items of the whole cache carrying the identity key `k`. -/
def storeCount (s : UserMediaStore) (k : Int × MediaType) : Nat :=
  countKey s.want_to_watch k + countKey s.watching k + countKey s.completed k

/-- Pairwise disjointness of the three status partitions with respect to the
identity key. -/
def pairwiseDisjointKeys (s : UserMediaStore) : Prop :=
  (∀ k, k ∈ s.want_to_watch.map itemKey → k ∉ s.watching.map itemKey) ∧
  (∀ k, k ∈ s.want_to_watch.map itemKey → k ∉ s.completed.map itemKey) ∧
  (∀ k, k ∈ s.watching.map itemKey → k ∉ s.completed.map itemKey)

/-- The three initialization flags of the application store. -/
structure InitFlags where
  authResolved : Bool
  dataHydrated : Bool
  appInitialized : Bool
deriving DecidableEq, Repr

/-- Initialization-gate state of the application store: the flags plus the
number of times the one-shot initialized notification has been fired by
`checkAndMarkAppInitialized` (the broadcast that announces the transition to
the initialized state; the unconditional listener broadcast of
`resetInitialization` is a different notification and is not counted here). -/
structure InitState where
  flags : InitFlags
  initNotifications : Nat
deriving DecidableEq, Repr

/-- The module-load state of the flags: all false, nothing notified. -/
def initialInitState : InitState :=
  { flags := { authResolved := false, dataHydrated := false, appInitialized := false },
    initNotifications := 0 }

/-- `checkAndMarkAppInitialized`: flip `appInitialized` and notify exactly when
both readiness flags hold and the app was not already marked initialized. -/
def checkAndMarkAppInitialized (s : InitState) : InitState :=
  if s.flags.authResolved && s.flags.dataHydrated && !s.flags.appInitialized then
    { flags := { s.flags with appInitialized := true },
      initNotifications := s.initNotifications + 1 }
  else s

/-- `markAuthResolved`. -/
def markAuthResolved (s : InitState) : InitState :=
  checkAndMarkAppInitialized { s with flags := { s.flags with authResolved := true } }

/-- `markDataHydrated`. -/
def markDataHydrated (s : InitState) : InitState :=
  checkAndMarkAppInitialized { s with flags := { s.flags with dataHydrated := true } }

/-- `resetInitialization`: drive all three flags back to false. -/
def resetInitialization (s : InitState) : InitState :=
  { s with flags := { authResolved := false, dataHydrated := false, appInitialized := false } }

/-- The operations of the initialization gate. -/
inductive InitOp where
  | markAuth
  | markData
  | reset
deriving DecidableEq, Repr

/-- Apply one gate operation. -/
def applyInitOp (s : InitState) : InitOp → InitState
  | .markAuth => markAuthResolved s
  | .markData => markDataHydrated s
  | .reset => resetInitialization s

/-- Run a sequence of gate operations from the module-load state. -/
def runInit (ops : List InitOp) : InitState :=
  ops.foldl applyInitOp initialInitState

/-- Erase the display-only surrogate id regenerated on every conversion from a
remote row (`Date.now() + Math.random()` in `supabaseToMediaItem`). -/
def MediaItem.eraseId (i : MediaItem) : MediaItem :=
  { i with id := 0 }

/-- The cache content up to surrogate ids. -/
def eraseIds (s : UserMediaStore) : UserMediaStore :=
  { want_to_watch := s.want_to_watch.map MediaItem.eraseId,
    watching := s.watching.map MediaItem.eraseId,
    completed := s.completed.map MediaItem.eraseId }

/-- A concrete movie item used by the closed witnesses and counterexamples. -/
def sampleItem : MediaItem :=
  { id := 1, tmdbId := 550, title := "Fight Club", mediaType := .movie,
    posterPath := none, releaseYear := "1999", rating := 8,
    status := .want_to_watch, addedAt := "2026-01-01" }

/-- A concrete remote row used by the closed witnesses and counterexamples. -/
def sampleRow : UserMediaRow :=
  { tmdb_id := 550, title := "Fight Club", media_type := .movie,
    poster_path := none, release_year := "1999", rating := 8,
    status := .want_to_watch, created_at := "2026-01-02",
    current_season := none, current_episode := none, overview := none,
    runtime := none, number_of_seasons := none, number_of_episodes := none }

/-- Whether the cache holds an item with the identity key `k`. -/
def hasKey (s : UserMediaStore) (k : Int × MediaType) : Bool :=
  decide (0 < storeCount s k)

/-- The boolean key comparison of the source decides equality of identity keys. -/
theorem keyMatches_eq_true {t : Int} {m : MediaType} {i : MediaItem} :
    keyMatches t m i = true ↔ itemKey i = (t, m) := by
  simp [keyMatches, itemKey, Prod.ext_iff]

theorem countKey_append (l₁ l₂ : List MediaItem) (k : Int × MediaType) :
    countKey (l₁ ++ l₂) k = countKey l₁ k + countKey l₂ k := by
  simp [countKey, List.countP_append]

theorem countKey_singleton (i : MediaItem) (k : Int × MediaType) :
    countKey [i] k = if itemKey i = k then 1 else 0 := by
  by_cases h : itemKey i = k
  · have hb : keyMatches k.1 k.2 i = true := by
      rw [keyMatches_eq_true, ← h]
    simp [countKey, List.countP_cons, hb, h]
  · have hb : ¬ keyMatches k.1 k.2 i = true := by
      rw [keyMatches_eq_true]
      intro hc
      exact h (by rw [hc])
    simp [countKey, List.countP_cons, hb, h]

theorem countKey_pos_iff_mem (l : List MediaItem) (k : Int × MediaType) :
    0 < countKey l k ↔ k ∈ l.map itemKey := by
  simp only [countKey, List.countP_pos_iff, List.mem_map]
  constructor
  · rintro ⟨i, hi, hm⟩
    exact ⟨i, hi, (keyMatches_eq_true.mp hm).symm ▸ rfl⟩
  · rintro ⟨i, hi, hm⟩
    refine ⟨i, hi, keyMatches_eq_true.mpr ?_⟩
    rw [hm]

theorem keyMatches_pair_eq_true {k : Int × MediaType} {i : MediaItem} :
    keyMatches k.1 k.2 i = true ↔ itemKey i = k := by
  simp [keyMatches, itemKey, Prod.ext_iff]

theorem countKey_filter_out (l : List MediaItem) (t : Int) (m : MediaType)
    (k : Int × MediaType) :
    countKey (l.filter (fun i => !(keyMatches t m i))) k =
      if k = (t, m) then 0 else countKey l k := by
  rw [countKey, List.countP_filter]
  by_cases hk : k = (t, m)
  · subst hk
    rw [if_pos rfl, List.countP_eq_zero]
    intro a _
    simp
  · rw [if_neg hk, countKey]
    apply List.countP_congr
    intro i _
    simp only [Bool.and_eq_true, Bool.not_eq_true']
    constructor
    · rintro ⟨h1, _⟩
      exact h1
    · intro h1
      refine ⟨h1, ?_⟩
      by_contra hc
      apply hk
      have h3 : keyMatches t m i = true := by simpa using hc
      have h4 := keyMatches_eq_true.mp h3
      have h2 := keyMatches_pair_eq_true.mp h1
      rw [← h2, h4]

theorem storeCount_eq_allItems (s : UserMediaStore) (k : Int × MediaType) :
    storeCount s k = countKey (allItems s) k := by
  simp only [storeCount, allItems, countKey_append]

theorem mem_storeKeys_iff (s : UserMediaStore) (k : Int × MediaType) :
    k ∈ storeKeys s ↔ 0 < storeCount s k := by
  rw [storeKeys, storeCount_eq_allItems, countKey_pos_iff_mem]

theorem storeCount_set_add (store : UserMediaStore) (st : WatchStatus)
    (l : List MediaItem) (k : Int × MediaType) :
    storeCount (store.set st l) k + countKey (store.get st) k =
      storeCount store k + countKey l k := by
  cases st <;> simp [storeCount, UserMediaStore.set, UserMediaStore.get] <;> omega

theorem countKey_get_le (store : UserMediaStore) (st : WatchStatus) (k : Int × MediaType) :
    countKey (store.get st) k ≤ storeCount store k := by
  cases st <;> simp [storeCount, UserMediaStore.get] <;> omega

theorem any_keyMatches_iff (l : List MediaItem) (t : Int) (m : MediaType) :
    l.any (keyMatches t m) = true ↔ 0 < countKey l (t, m) := by
  rw [countKey, List.any_eq_true, List.countP_pos_iff]

theorem find?_eq_none_iff_countKey (l : List MediaItem) (t : Int) (m : MediaType) :
    l.find? (keyMatches t m) = none ↔ countKey l (t, m) = 0 := by
  rw [List.find?_eq_none, countKey, List.countP_eq_zero]

theorem find?_eq_some_countKey {l : List MediaItem} {t : Int} {m : MediaType}
    {i : MediaItem} (h : l.find? (keyMatches t m) = some i) :
    0 < countKey l (t, m) ∧ itemKey i = (t, m) := by
  have hmem := List.mem_of_find?_eq_some h
  have hp := List.find?_some h
  constructor
  · rw [countKey, List.countP_pos_iff]
    exact ⟨i, hmem, hp⟩
  · exact keyMatches_eq_true.mp hp

theorem applyGuestOp_add (store : UserMediaStore) (item : MediaItem) :
    applyGuestOp store (.add item) =
      if (allItems store).any (keyMatches item.tmdbId item.mediaType) then store
      else store.set item.status (store.get item.status ++ [item]) := by
  simp only [applyGuestOp, addToList, Bool.false_eq_true, if_false, addToListLocalPhase]
  split <;> rfl

theorem applyGuestOp_remove (store : UserMediaStore) (t : Int) (m : MediaType) :
    applyGuestOp store (.remove t m) =
      { want_to_watch := store.want_to_watch.filter (fun i => !(keyMatches t m i)),
        watching := store.watching.filter (fun i => !(keyMatches t m i)),
        completed := store.completed.filter (fun i => !(keyMatches t m i)) } := rfl

theorem storeCount_removeAll (store : UserMediaStore) (t : Int) (m : MediaType)
    (k : Int × MediaType) :
    storeCount
      { want_to_watch := store.want_to_watch.filter (fun i => !(keyMatches t m i)),
        watching := store.watching.filter (fun i => !(keyMatches t m i)),
        completed := store.completed.filter (fun i => !(keyMatches t m i)) } k =
      if k = (t, m) then 0 else storeCount store k := by
  simp only [storeCount, countKey_filter_out]
  by_cases hk : k = (t, m) <;> simp [hk]

theorem findInStore_eq_none_iff (store : UserMediaStore) (t : Int) (m : MediaType) :
    findInStore store t m = none ↔ storeCount store (t, m) = 0 := by
  simp only [findInStore, storeCount]
  cases h1 : store.want_to_watch.find? (keyMatches t m) with
  | some i =>
    have := (find?_eq_some_countKey h1).1
    simp only []
    constructor
    · intro hc; exact absurd hc (by simp)
    · intro hc; omega
  | none =>
    have hc1 := (find?_eq_none_iff_countKey _ t m).mp h1
    cases h2 : store.watching.find? (keyMatches t m) with
    | some i =>
      have := (find?_eq_some_countKey h2).1
      constructor
      · intro hc; exact absurd hc (by simp)
      · intro hc; omega
    | none =>
      have hc2 := (find?_eq_none_iff_countKey _ t m).mp h2
      cases h3 : store.completed.find? (keyMatches t m) with
      | some i =>
        have := (find?_eq_some_countKey h3).1
        constructor
        · intro hc; exact absurd hc (by simp)
        · intro hc; omega
      | none =>
        have hc3 := (find?_eq_none_iff_countKey _ t m).mp h3
        simp [hc1, hc2, hc3]

theorem findInStore_eq_some {store : UserMediaStore} {t : Int} {m : MediaType}
    {st : WatchStatus} {item : MediaItem}
    (h : findInStore store t m = some (st, item)) :
    (store.get st).find? (keyMatches t m) = some item ∧ itemKey item = (t, m) := by
  simp only [findInStore] at h
  cases h1 : store.want_to_watch.find? (keyMatches t m) with
  | some i =>
    rw [h1] at h
    simp only [Option.some.injEq, Prod.mk.injEq] at h
    obtain ⟨hst, hi⟩ := h
    subst hst; subst hi
    exact ⟨h1, (find?_eq_some_countKey h1).2⟩
  | none =>
    rw [h1] at h
    cases h2 : store.watching.find? (keyMatches t m) with
    | some i =>
      rw [h2] at h
      simp only [Option.some.injEq, Prod.mk.injEq] at h
      obtain ⟨hst, hi⟩ := h
      subst hst; subst hi
      exact ⟨h2, (find?_eq_some_countKey h2).2⟩
    | none =>
      rw [h2] at h
      cases h3 : store.completed.find? (keyMatches t m) with
      | some i =>
        rw [h3] at h
        simp only [Option.some.injEq, Prod.mk.injEq] at h
        obtain ⟨hst, hi⟩ := h
        subst hst; subst hi
        exact ⟨h3, (find?_eq_some_countKey h3).2⟩
      | none =>
        rw [h3] at h
        exact absurd h (by simp)

theorem storeCount_eq_indicator (store : UserMediaStore)
    (hinv : ∀ k, storeCount store k ≤ 1) (k : Int × MediaType) :
    storeCount store k = if hasKey store k = true then 1 else 0 := by
  have h := hinv k
  by_cases h0 : 0 < storeCount store k <;> simp [hasKey, h0] <;> omega

theorem applyGuestOp_setStatus_none {store : UserMediaStore} {t : Int}
    {m : MediaType} (ns : WatchStatus) (h : findInStore store t m = none) :
    applyGuestOp store (.setStatus t m ns) = store := by
  simp [applyGuestOp, updateStatus, updateStatusLocalPhase, h]

theorem applyGuestOp_setStatus_some {store : UserMediaStore} {t : Int}
    {m : MediaType} {st : WatchStatus} {item : MediaItem} (ns : WatchStatus)
    (h : findInStore store t m = some (st, item)) :
    applyGuestOp store (.setStatus t m ns) =
      (store.set st ((store.get st).filter (fun i => !(keyMatches t m i)))).set ns
        (((store.set st ((store.get st).filter (fun i => !(keyMatches t m i)))).get ns)
          ++ [{ item with status := ns }]) := by
  simp [applyGuestOp, updateStatus, updateStatusLocalPhase, h, saveLocalStore]


theorem count_of_hasKey_true {store : UserMediaStore} {k : Int × MediaType}
    (hinv : ∀ k, storeCount store k ≤ 1) (h : hasKey store k = true) :
    storeCount store k = 1 := by
  have h1 := hinv k
  simp only [hasKey, decide_eq_true_eq] at h
  omega

theorem count_of_hasKey_false {store : UserMediaStore} {k : Int × MediaType}
    (h : hasKey store k = false) : storeCount store k = 0 := by
  simp only [hasKey, decide_eq_false_iff_not] at h
  omega

theorem applyGuestOp_count (store : UserMediaStore) (op : GuestOp)
    (hinv : ∀ k, storeCount store k ≤ 1) (k : Int × MediaType) :
    storeCount (applyGuestOp store op) k =
      if trackKey (hasKey store) op k = true then 1 else 0 := by
  cases op with
  | add item =>
    rw [applyGuestOp_add]
    simp only [trackKey]
    by_cases hdup : (allItems store).any (keyMatches item.tmdbId item.mediaType) = true
    · simp only [hdup, if_true]
      have h1 : 0 < storeCount store (itemKey item) := by
        rw [storeCount_eq_allItems]
        exact (any_keyMatches_iff (allItems store) item.tmdbId item.mediaType).mp hdup
      by_cases hk : itemKey item = k
      · subst hk
        simp only [eq_self_iff_true, if_true]
        have h3 := hinv (itemKey item)
        omega
      · simp only [hk, if_false]
        exact storeCount_eq_indicator store hinv k
    · simp only [Bool.not_eq_true] at hdup
      simp only [hdup, Bool.false_eq_true, if_false]
      have hzero : countKey (allItems store) (item.tmdbId, item.mediaType) = 0 := by
        have h2 : ¬ (0 < countKey (allItems store) (item.tmdbId, item.mediaType)) := by
          intro hpos
          have h3 := (any_keyMatches_iff (allItems store) item.tmdbId item.mediaType).mpr hpos
          rw [h3] at hdup
          exact absurd hdup (by simp)
        omega
      have hadd := storeCount_set_add store item.status (store.get item.status ++ [item]) k
      rw [countKey_append, countKey_singleton] at hadd
      by_cases hk : itemKey item = k
      · subst hk
        simp only [eq_self_iff_true, if_true] at hadd ⊢
        have h5 : storeCount store (itemKey item) = 0 := by
          rw [storeCount_eq_allItems]
          simpa only [itemKey] using hzero
        omega
      · simp only [hk, if_false] at hadd ⊢
        cases hh : hasKey store k with
        | true =>
          have h4 := count_of_hasKey_true hinv hh
          simp only [eq_self_iff_true, if_true]
          omega
        | false =>
          have h4 := count_of_hasKey_false hh
          simp only [Bool.false_eq_true, if_false]
          omega
  | remove t m =>
    rw [applyGuestOp_remove, storeCount_removeAll]
    simp only [trackKey]
    by_cases hk : k = (t, m)
    · subst hk
      simp
    · have hk2 : ¬ (t, m) = k := fun hc => hk hc.symm
      simp only [hk, hk2, if_false]
      exact storeCount_eq_indicator store hinv k
  | setStatus t m ns =>
    simp only [trackKey]
    cases hf : findInStore store t m with
    | none =>
      rw [applyGuestOp_setStatus_none ns hf]
      exact storeCount_eq_indicator store hinv k
    | some p =>
      obtain ⟨st, item⟩ := p
      obtain ⟨hfind, hkey⟩ := findInStore_eq_some hf
      rw [applyGuestOp_setStatus_some ns hf]
      have hcfind := (find?_eq_some_countKey hfind).1
      have hle := countKey_get_le store st (t, m)
      have hb := hinv (t, m)
      have heq1 := storeCount_set_add store st
        ((store.get st).filter (fun i => !(keyMatches t m i))) k
      rw [countKey_filter_out] at heq1
      have heq2 := storeCount_set_add
        (store.set st ((store.get st).filter (fun i => !(keyMatches t m i)))) ns
        ((store.set st ((store.get st).filter (fun i => !(keyMatches t m i)))).get ns
          ++ [{ item with status := ns }]) k
      rw [countKey_append, countKey_singleton] at heq2
      have hkey1 : itemKey { item with status := ns } = (t, m) := by
        rw [← hkey]
        rfl
      rw [hkey1] at heq2
      by_cases hk : k = (t, m)
      · subst hk
        simp only [eq_self_iff_true, if_true] at heq1 heq2
        have hhk : hasKey store (t, m) = true := by
          simp only [hasKey, decide_eq_true_eq]
          omega
        simp only [hhk, eq_self_iff_true, if_true]
        omega
      · have hk2 : ¬ (t, m) = k := fun hc => hk hc.symm
        simp only [hk, if_false] at heq1
        simp only [hk2, if_false] at heq2
        by_cases hh : hasKey store k = true
        · have h4 := count_of_hasKey_true hinv hh
          simp only [hh, eq_self_iff_true, if_true]
          omega
        · have hh2 : hasKey store k = false := by
            revert hh
            cases hasKey store k <;> simp
          have h4 := count_of_hasKey_false hh2
          simp only [hh2, Bool.false_eq_true, if_false]
          omega

theorem applyGuestOp_le_one (store : UserMediaStore) (op : GuestOp)
    (hinv : ∀ k, storeCount store k ≤ 1) (k : Int × MediaType) :
    storeCount (applyGuestOp store op) k ≤ 1 := by
  rw [applyGuestOp_count store op hinv k]
  split <;> omega

theorem hasKey_applyGuestOp (store : UserMediaStore) (op : GuestOp)
    (hinv : ∀ k, storeCount store k ≤ 1) :
    hasKey (applyGuestOp store op) = trackKey (hasKey store) op := by
  funext k
  have h := applyGuestOp_count store op hinv k
  by_cases hb : trackKey (hasKey store) op k = true
  · simp only [hb, if_true] at h
    simp [hasKey, h, hb]
  · simp only [hb, if_false] at h
    have hb2 : trackKey (hasKey store) op k = false := by
      revert hb
      cases trackKey (hasKey store) op k <;> simp
    simp [hasKey, h, hb2]

theorem foldGuest_count (ops : List GuestOp) :
    ∀ store : UserMediaStore, (∀ k, storeCount store k ≤ 1) →
      (∀ k, storeCount (ops.foldl applyGuestOp store) k ≤ 1) ∧
      hasKey (ops.foldl applyGuestOp store) = ops.foldl trackKey (hasKey store) := by
  induction ops with
  | nil =>
    intro store hinv
    exact ⟨hinv, rfl⟩
  | cons op rest ih =>
    intro store hinv
    rw [List.foldl_cons, List.foldl_cons, ← hasKey_applyGuestOp store op hinv]
    exact ih (applyGuestOp store op) (applyGuestOp_le_one store op hinv)

theorem storeCount_empty (k : Int × MediaType) : storeCount emptyStore k = 0 := by
  simp [storeCount, countKey, emptyStore]

theorem hasKey_empty : hasKey emptyStore = fun _ => false := by
  funext k
  simp [hasKey, storeCount_empty]

theorem runGuest_count_le_one (ops : List GuestOp) (k : Int × MediaType) :
    storeCount (runGuest ops) k ≤ 1 :=
  (foldGuest_count ops emptyStore (fun k1 => by rw [storeCount_empty k1]; omega)).1 k

theorem runGuest_hasKey (ops : List GuestOp) :
    hasKey (runGuest ops) = addedNotRemoved ops := by
  have h := (foldGuest_count ops emptyStore
    (fun k1 => by rw [storeCount_empty k1]; omega)).2
  rw [runGuest, h, hasKey_empty, addedNotRemoved]

/-- C1: for every sequence of addItem (addToList), removeItem (removeFromList)
and changeStatus (updateStatus) operations performed while unauthenticated,
starting from the empty collection, the three status partitions of the local
cache are pairwise disjoint with respect to the identity key
`(tmdbId, mediaType)`, and the identity keys present in the union of the three
partitions are exactly those added and not subsequently removed. -/
theorem C1_guest_partition_invariant (ops : List GuestOp) :
    pairwiseDisjointKeys (runGuest ops) ∧
    (∀ k, k ∈ storeKeys (runGuest ops) ↔ addedNotRemoved ops k = true) := by
  have hle := runGuest_count_le_one ops
  have hchar := runGuest_hasKey ops
  constructor
  · refine ⟨?_, ?_, ?_⟩ <;> intro k hk1 hk2
    · have c1 : 0 < countKey (runGuest ops).want_to_watch k :=
        (countKey_pos_iff_mem _ _).mpr hk1
      have c2 : 0 < countKey (runGuest ops).watching k :=
        (countKey_pos_iff_mem _ _).mpr hk2
      have c3 := hle k
      simp only [storeCount] at c3
      omega
    · have c1 : 0 < countKey (runGuest ops).want_to_watch k :=
        (countKey_pos_iff_mem _ _).mpr hk1
      have c2 : 0 < countKey (runGuest ops).completed k :=
        (countKey_pos_iff_mem _ _).mpr hk2
      have c3 := hle k
      simp only [storeCount] at c3
      omega
    · have c1 : 0 < countKey (runGuest ops).watching k :=
        (countKey_pos_iff_mem _ _).mpr hk1
      have c2 : 0 < countKey (runGuest ops).completed k :=
        (countKey_pos_iff_mem _ _).mpr hk2
      have c3 := hle k
      simp only [storeCount] at c3
      omega
  · intro k
    rw [mem_storeKeys_iff]
    constructor
    · intro hpos
      rw [← hchar]
      simp [hasKey, hpos]
    · intro hadd
      have hk : hasKey (runGuest ops) k = true := by
        rw [hchar]
        exact hadd
      simp only [hasKey, decide_eq_true_eq] at hk
      exact hk

/-- Witness for C1 at a concrete operation sequence. -/
theorem C1_guest_partition_invariant_witness :
    pairwiseDisjointKeys (runGuest [GuestOp.add sampleItem]) ∧
    (550, MediaType.movie) ∈ storeKeys (runGuest [GuestOp.add sampleItem]) := by
  have h := C1_guest_partition_invariant [GuestOp.add sampleItem]
  exact ⟨h.1, (h.2 (550, MediaType.movie)).mpr (by decide)⟩

/-- C2: while authenticated, if the remote insert rejects or throws, addToList
rethrows exactly that failure to the caller and the local state is completely
unchanged: the cache (hence every partition) is as before and no
`mediaStoreUpdate` notification is dispatched, because the local phase only
runs after a successful (or skipped) remote step. -/
theorem C2_add_remote_failure_leaves_cache (e : String) (item : MediaItem)
    (s : LocalState) :
    addToList true (.error e) item s =
      { thrown := some e, warning := none, state := s, remoteCalled := true } := rfl

/-- C7: the local cache read never raises (it is total): with no stored
payload, or with a payload on which the parse throws, it returns the empty
collection instead of propagating the error. -/
theorem C7_get_local_store_total (parse : String → Option UserMediaStore) :
    getLocalStore parse none = emptyStore ∧
    ∀ raw : String, parse raw = none → getLocalStore parse (some raw) = emptyStore := by
  constructor
  · rfl
  · intro raw h
    simp [getLocalStore, h]

/-- Witness for C7 at a concrete corrupt payload. -/
theorem C7_get_local_store_total_witness :
    getLocalStore (fun _ => none) none = emptyStore ∧
    getLocalStore (fun _ => none) (some "corrupt payload") = emptyStore := by
  have h := C7_get_local_store_total (fun _ => none)
  exact ⟨h.1, h.2 "corrupt payload" rfl⟩

/-- C9: updateProgress on a movie is a warned no-op before anything else
happens: nothing is thrown, the remote is not called even when authenticated,
and the local state (cache and notification counter, hence the progress
fields of every stored item) is unchanged. -/
theorem C9_update_progress_movie_noop (loggedIn : Bool)
    (remoteProgress : Except String Unit) (tmdbId : Int)
    (season episode : Int) (s : LocalState) :
    updateProgress loggedIn remoteProgress tmdbId .movie season episode s =
      { thrown := none, warning := some "Progress tracking is only for TV series",
        state := s, remoteCalled := false } := rfl

/-- C10: if the remote fetch inside loadFromSupabase fails while
authenticated, nothing is rethrown (the function still returns a state), and
the local state is exactly the prior one: no partial replacement, no
notification. -/
theorem C10_hydrate_fetch_failure_noop (e : String) (gen : Nat → Int)
    (s : LocalState) :
    loadFromSupabase true (.error e) gen s = s := rfl

/-- C5 counterexample: with an authenticated session and a rejecting remote,
adding an item whose identity key is already present in the cache is not a
benign no-op: the duplicate check runs only after the remote step, so the
remote failure propagates to the caller instead of the DuplicateItem warning. -/
theorem C5_counterexample :
    ¬ ((addToList true (.error "insert rejected") sampleItem
        { store := { want_to_watch := [sampleItem], watching := [], completed := [] },
          events := 0 }).thrown = none ∧
       (addToList true (.error "insert rejected") sampleItem
        { store := { want_to_watch := [sampleItem], watching := [], completed := [] },
          events := 0 }).warning = some "Item already in list") := by
  decide

/-- C5 amended: when the remote step is skipped (guest session) or succeeds,
adding an item whose identity key already exists in some partition is a benign
no-op failing only with the DuplicateItem warning: nothing is thrown and the
local state (partition contents and notification counter) is unchanged. -/
theorem C5_duplicate_add_noop (item : MediaItem) (s : LocalState)
    (hdup : (allItems s.store).any (keyMatches item.tmdbId item.mediaType) = true) :
    (∀ remoteAdd : Except String Unit,
      addToList false remoteAdd item s =
        { thrown := none, warning := some "Item already in list",
          state := s, remoteCalled := false }) ∧
    addToList true (.ok ()) item s =
      { thrown := none, warning := some "Item already in list",
        state := s, remoteCalled := true } := by
  constructor
  · intro remoteAdd
    simp [addToList, addToListLocalPhase, hdup]
  · simp [addToList, addToListLocalPhase, hdup]

/-- Witness for the amended C5 at a concrete duplicate. -/
theorem C5_duplicate_add_noop_witness :
    addToList false (.ok ()) sampleItem
      { store := { want_to_watch := [sampleItem], watching := [], completed := [] },
        events := 0 } =
      { thrown := none, warning := some "Item already in list",
        state := { store := { want_to_watch := [sampleItem], watching := [], completed := [] },
                   events := 0 },
        remoteCalled := false } :=
  (C5_duplicate_add_noop sampleItem _ (by decide)).1 (.ok ())

/-- C6 counterexample: with an authenticated session and a rejecting remote,
updateStatus on a key absent from every partition does not report ItemNotFound;
the remote failure is rethrown before the local lookup runs. -/
theorem C6_counterexample :
    ¬ ((updateStatus true (.error "update rejected") 550 MediaType.movie
        WatchStatus.watching { store := emptyStore, events := 0 }).thrown = none ∧
       (updateStatus true (.error "update rejected") 550 MediaType.movie
        WatchStatus.watching { store := emptyStore, events := 0 }).warning =
          some "Item not found in any list") := by
  decide

/-- C6 amended: updateStatus on a key absent from every partition reports
ItemNotFound and is a no-op whenever the remote step is skipped
(unauthenticated) or succeeds; if the remote step fails, that failure is
rethrown instead; in every case all three partitions (the whole local state)
are unchanged. -/
theorem C6_change_status_missing_key (tmdbId : Int) (mediaType : MediaType)
    (newStatus : WatchStatus) (s : LocalState)
    (habsent : findInStore s.store tmdbId mediaType = none) :
    (∀ remoteUpdate : Except String Unit,
      updateStatus false remoteUpdate tmdbId mediaType newStatus s =
        { thrown := none, warning := some "Item not found in any list",
          state := s, remoteCalled := false }) ∧
    (updateStatus true (.ok ()) tmdbId mediaType newStatus s =
      { thrown := none, warning := some "Item not found in any list",
        state := s, remoteCalled := true }) ∧
    (∀ e : String, updateStatus true (.error e) tmdbId mediaType newStatus s =
      { thrown := some e, warning := none, state := s, remoteCalled := true }) := by
  refine ⟨?_, ?_, ?_⟩
  · intro remoteUpdate
    simp [updateStatus, updateStatusLocalPhase, habsent]
  · simp [updateStatus, updateStatusLocalPhase, habsent]
  · intro e
    rfl

/-- Witness for the amended C6 at a concrete missing key. -/
theorem C6_change_status_missing_key_witness :
    updateStatus false (.ok ()) 550 MediaType.movie WatchStatus.watching
      { store := emptyStore, events := 0 } =
      { thrown := none, warning := some "Item not found in any list",
        state := { store := emptyStore, events := 0 }, remoteCalled := false } :=
  (C6_change_status_missing_key 550 .movie .watching _ (by decide)).1 (.ok ())

theorem initInv_applyInitOp (s : InitState) (op : InitOp)
    (h : s.flags.appInitialized = (s.flags.authResolved && s.flags.dataHydrated)) :
    (applyInitOp s op).flags.appInitialized =
      ((applyInitOp s op).flags.authResolved && (applyInitOp s op).flags.dataHydrated) := by
  obtain ⟨⟨a, d, i⟩, n⟩ := s
  cases op with
  | reset => simp [applyInitOp, resetInitialization]
  | markAuth =>
    cases a <;> cases d <;> cases i <;>
      simp_all [applyInitOp, markAuthResolved, checkAndMarkAppInitialized]
  | markData =>
    cases a <;> cases d <;> cases i <;>
      simp_all [applyInitOp, markDataHydrated, checkAndMarkAppInitialized]

theorem runInit_inv (ops : List InitOp) :
    (runInit ops).flags.appInitialized =
      ((runInit ops).flags.authResolved && (runInit ops).flags.dataHydrated) := by
  rw [runInit]
  have h : ∀ s : InitState,
      s.flags.appInitialized = (s.flags.authResolved && s.flags.dataHydrated) →
      (ops.foldl applyInitOp s).flags.appInitialized =
        ((ops.foldl applyInitOp s).flags.authResolved &&
          (ops.foldl applyInitOp s).flags.dataHydrated) := by
    induction ops with
    | nil => intro s hs; exact hs
    | cons op rest ih =>
      intro s hs
      rw [List.foldl_cons]
      exact ih _ (initInv_applyInitOp s op hs)
  exact h initialInitState rfl

theorem applyInitOp_mono (s : InitState) (op : InitOp) (hop : op ≠ InitOp.reset) :
    (s.flags.authResolved = true → (applyInitOp s op).flags.authResolved = true) ∧
    (s.flags.dataHydrated = true → (applyInitOp s op).flags.dataHydrated = true) ∧
    (s.flags.appInitialized = true → (applyInitOp s op).flags.appInitialized = true) := by
  obtain ⟨⟨a, d, i⟩, n⟩ := s
  cases op with
  | reset => exact absurd rfl hop
  | markAuth =>
    cases a <;> cases d <;> cases i <;>
      simp [applyInitOp, markAuthResolved, checkAndMarkAppInitialized]
  | markData =>
    cases a <;> cases d <;> cases i <;>
      simp [applyInitOp, markDataHydrated, checkAndMarkAppInitialized]

theorem markAuthResolved_noop (s : InitState)
    (hinv : s.flags.appInitialized = (s.flags.authResolved && s.flags.dataHydrated))
    (ha : s.flags.authResolved = true) :
    markAuthResolved s = s := by
  obtain ⟨⟨a, d, i⟩, n⟩ := s
  simp only at ha
  subst ha
  cases d <;> cases i <;>
    simp_all [markAuthResolved, checkAndMarkAppInitialized]

theorem markDataHydrated_noop (s : InitState)
    (hinv : s.flags.appInitialized = (s.flags.authResolved && s.flags.dataHydrated))
    (hd : s.flags.dataHydrated = true) :
    markDataHydrated s = s := by
  obtain ⟨⟨a, d, i⟩, n⟩ := s
  simp only at hd
  subst hd
  cases a <;> cases i <;>
    simp_all [markDataHydrated, checkAndMarkAppInitialized]

theorem applyInitOp_potential (s : InitState) (op : InitOp) (hop : op ≠ InitOp.reset) :
    (applyInitOp s op).initNotifications +
        (if (applyInitOp s op).flags.appInitialized = true then 0 else 1) =
      s.initNotifications + (if s.flags.appInitialized = true then 0 else 1) := by
  obtain ⟨⟨a, d, i⟩, n⟩ := s
  cases op with
  | reset => exact absurd rfl hop
  | markAuth =>
    cases a <;> cases d <;> cases i <;>
      simp [applyInitOp, markAuthResolved, checkAndMarkAppInitialized]
  | markData =>
    cases a <;> cases d <;> cases i <;>
      simp [applyInitOp, markDataHydrated, checkAndMarkAppInitialized]

theorem foldInit_notifications_le (tail : List InitOp) :
    ∀ s : InitState, (∀ op ∈ tail, op ≠ InitOp.reset) →
      (tail.foldl applyInitOp s).initNotifications ≤
        s.initNotifications + (if s.flags.appInitialized = true then 0 else 1) := by
  induction tail with
  | nil =>
    intro s _
    rw [List.foldl_nil]
    split <;> omega
  | cons op rest ih =>
    intro s h
    rw [List.foldl_cons]
    have h1 := applyInitOp_potential s op (h op (by simp))
    have h2 := ih (applyInitOp s op) (fun o ho => h o (by simp [ho]))
    omega

/-- C8: for every sequence of markAuthResolved, markDataHydrated and
resetInitialization calls from the initial state, the appInitialized flag is
true exactly when both readiness flags are; any non-reset operation only moves
flags from false to true; re-marking an already-true flag is a no-op that
leaves the whole state (in particular the initialized-notification count)
unchanged; and along any further reset-free suffix the initialized
notification fires at most once more, and not at all when already
initialized. -/
theorem C8_initialization_gate (ops : List InitOp) :
    ((runInit ops).flags.appInitialized =
      ((runInit ops).flags.authResolved && (runInit ops).flags.dataHydrated)) ∧
    (∀ op, op ≠ InitOp.reset →
      ((runInit ops).flags.authResolved = true →
        (applyInitOp (runInit ops) op).flags.authResolved = true) ∧
      ((runInit ops).flags.dataHydrated = true →
        (applyInitOp (runInit ops) op).flags.dataHydrated = true) ∧
      ((runInit ops).flags.appInitialized = true →
        (applyInitOp (runInit ops) op).flags.appInitialized = true)) ∧
    ((runInit ops).flags.authResolved = true →
      applyInitOp (runInit ops) InitOp.markAuth = runInit ops) ∧
    ((runInit ops).flags.dataHydrated = true →
      applyInitOp (runInit ops) InitOp.markData = runInit ops) ∧
    (∀ tail : List InitOp, (∀ op ∈ tail, op ≠ InitOp.reset) →
      (tail.foldl applyInitOp (runInit ops)).initNotifications ≤
        (runInit ops).initNotifications +
          (if (runInit ops).flags.appInitialized = true then 0 else 1)) := by
  have hinv := runInit_inv ops
  refine ⟨hinv, ?_, ?_, ?_, ?_⟩
  · intro op hop
    exact applyInitOp_mono (runInit ops) op hop
  · intro ha
    exact markAuthResolved_noop (runInit ops) hinv ha
  · intro hd
    exact markDataHydrated_noop (runInit ops) hinv hd
  · intro tail htail
    exact foldInit_notifications_le tail (runInit ops) htail

/-- Witness for C8 at a concrete bootstrap sequence. -/
theorem C8_initialization_gate_witness :
    applyInitOp (runInit [InitOp.markAuth, InitOp.markData]) InitOp.markAuth =
      runInit [InitOp.markAuth, InitOp.markData] ∧
    ([InitOp.markData].foldl applyInitOp
        (runInit [InitOp.markAuth, InitOp.markData])).initNotifications ≤
      (runInit [InitOp.markAuth, InitOp.markData]).initNotifications +
        (if (runInit [InitOp.markAuth, InitOp.markData]).flags.appInitialized = true
          then 0 else 1) := by
  have h := C8_initialization_gate [InitOp.markAuth, InitOp.markData]
  exact ⟨h.2.2.1 (by decide), h.2.2.2.2 [InitOp.markData] (by decide)⟩

theorem eraseIds_set (s : UserMediaStore) (st : WatchStatus) (l : List MediaItem) :
    eraseIds (s.set st l) = (eraseIds s).set st (l.map MediaItem.eraseId) := by
  cases st <;> rfl

theorem eraseIds_get (s : UserMediaStore) (st : WatchStatus) :
    (eraseIds s).get st = (s.get st).map MediaItem.eraseId := by
  cases st <;> rfl

theorem eraseId_supabaseToMediaItem (v : Int) (row : UserMediaRow) :
    (supabaseToMediaItem v row).eraseId = supabaseToMediaItem 0 row := rfl

theorem eraseIds_partitionRowsAux (rows : List UserMediaRow) :
    ∀ (gen1 gen2 : Nat → Int) (n1 n2 : Nat) (s1 s2 : UserMediaStore),
      eraseIds s1 = eraseIds s2 →
      eraseIds (partitionRowsAux gen1 n1 rows s1) =
        eraseIds (partitionRowsAux gen2 n2 rows s2) := by
  induction rows with
  | nil =>
    intro gen1 gen2 n1 n2 s1 s2 h
    exact h
  | cons row rest ih =>
    intro gen1 gen2 n1 n2 s1 s2 h
    simp only [partitionRowsAux]
    apply ih
    rw [show ((supabaseToMediaItem (gen1 n1) row).status) = row.status from rfl,
        show ((supabaseToMediaItem (gen2 n2) row).status) = row.status from rfl,
        eraseIds_set, eraseIds_set, List.map_append, List.map_append,
        ← eraseIds_get, ← eraseIds_get, h]
    rw [show List.map MediaItem.eraseId [supabaseToMediaItem (gen1 n1) row] =
          [supabaseToMediaItem 0 row] from rfl,
        show List.map MediaItem.eraseId [supabaseToMediaItem (gen2 n2) row] =
          [supabaseToMediaItem 0 row] from rfl]

/-- C4 counterexample: the surrogate id `Date.now() + Math.random()` is
regenerated on every conversion, so two consecutive successful hydrations of
the same remote collection produce caches that differ in the stored id fields
and are therefore not identical. -/
theorem C4_counterexample :
    (loadFromSupabase true (.ok [sampleRow]) (fun _ => 1)
        (loadFromSupabase true (.ok [sampleRow]) (fun _ => 0)
          { store := emptyStore, events := 0 })).store ≠
      (loadFromSupabase true (.ok [sampleRow]) (fun _ => 0)
        { store := emptyStore, events := 0 }).store := by
  decide

/-- C4 amended: a successful authenticated hydration replaces the local cache
by the status-partitioning of the fetched remote collection, independent of
the prior local contents, and notifies once; an unauthenticated call is a
no-op.  Two consecutive successful hydrations of the same remote collection
yield caches that are identical whenever the surrogate id generator yields
the same values, and in general identical up to the regenerated surrogate id
field. -/
theorem C4_hydrate_full_replacement (rows : List UserMediaRow)
    (gen gen2 : Nat → Int) (s : LocalState) :
    (loadFromSupabase true (.ok rows) gen s).store = partitionRows gen rows ∧
    (loadFromSupabase true (.ok rows) gen s).events = s.events + 1 ∧
    (∀ fetchAll : Except String (List UserMediaRow),
      loadFromSupabase false fetchAll gen s = s) ∧
    (loadFromSupabase true (.ok rows) gen
        (loadFromSupabase true (.ok rows) gen s)).store =
      (loadFromSupabase true (.ok rows) gen s).store ∧
    eraseIds (loadFromSupabase true (.ok rows) gen2
        (loadFromSupabase true (.ok rows) gen s)).store =
      eraseIds (loadFromSupabase true (.ok rows) gen s).store := by
  refine ⟨rfl, rfl, fun fetchAll => rfl, rfl, ?_⟩
  exact eraseIds_partitionRowsAux rows gen2 gen 0 0 emptyStore emptyStore rfl

/-- Witness for the amended C4: the unauthenticated no-op at a concrete state. -/
theorem C4_hydrate_full_replacement_witness :
    loadFromSupabase false (.ok [sampleRow]) (fun _ => 0)
      { store := emptyStore, events := 0 } =
      { store := emptyStore, events := 0 } :=
  (C4_hydrate_full_replacement [sampleRow] (fun _ => 0) (fun _ => 0)
    { store := emptyStore, events := 0 }).2.2.1 (.ok [sampleRow])

theorem storeCount_push (s : UserMediaStore) (st : WatchStatus) (item : MediaItem)
    (k : Int × MediaType) :
    storeCount (s.set st (s.get st ++ [item])) k =
      storeCount s k + (if itemKey item = k then 1 else 0) := by
  have h := storeCount_set_add s st (s.get st ++ [item]) k
  rw [countKey_append, countKey_singleton] at h
  omega

theorem mem_storeKeys_push (s : UserMediaStore) (st : WatchStatus)
    (item : MediaItem) (k : Int × MediaType) :
    k ∈ storeKeys (s.set st (s.get st ++ [item])) ↔
      itemKey item = k ∨ k ∈ storeKeys s := by
  rw [mem_storeKeys_iff, mem_storeKeys_iff, storeCount_push]
  by_cases hk : itemKey item = k
  · simp only [hk, eq_self_iff_true, if_true, true_or, iff_true]
    omega
  · simp only [hk, if_false, false_or]
    omega

theorem mem_storeKeys_partitionRowsAux (rows : List UserMediaRow) :
    ∀ (gen : Nat → Int) (n : Nat) (s : UserMediaStore) (k : Int × MediaType),
      k ∈ storeKeys (partitionRowsAux gen n rows s) ↔
        k ∈ storeKeys s ∨ k ∈ rows.map rowKey := by
  induction rows with
  | nil =>
    intro gen n s k
    simp [partitionRowsAux]
  | cons row rest ih =>
    intro gen n s k
    simp only [partitionRowsAux]
    rw [ih]
    rw [show ((supabaseToMediaItem (gen n) row).status) = row.status from rfl]
    rw [mem_storeKeys_push]
    rw [show itemKey (supabaseToMediaItem (gen n) row) = rowKey row from rfl]
    simp only [List.map_cons, List.mem_cons]
    tauto

theorem mem_storeKeys_partitionRows (gen : Nat → Int) (rows : List UserMediaRow)
    (k : Int × MediaType) :
    k ∈ storeKeys (partitionRows gen rows) ↔ k ∈ rows.map rowKey := by
  rw [partitionRows, mem_storeKeys_partitionRowsAux]
  have h : storeKeys emptyStore = [] := rfl
  simp [h]

theorem migrationFold_spec (accepts : MediaItem → Bool) (createdAt : Nat → String)
    (items : List MediaItem) :
    ∀ (c : Nat) (rows : List UserMediaRow),
      (items.foldl (migrationStep accepts createdAt) (c, rows)).1 =
        c + (items.filter accepts).length ∧
      ((items.foldl (migrationStep accepts createdAt) (c, rows)).2).map rowKey =
        rows.map rowKey ++ (items.filter accepts).map itemKey := by
  induction items with
  | nil =>
    intro c rows
    simp [List.filter]
  | cons item rest ih =>
    intro c rows
    rw [List.foldl_cons]
    by_cases ha : accepts item = true
    · rw [show migrationStep accepts createdAt (c, rows) item =
          (c + 1, rows ++ [insertToRow (createdAt rows.length) (mediaItemToSupabase item)])
          from by simp [migrationStep, ha]]
      obtain ⟨ih1, ih2⟩ := ih (c + 1)
        (rows ++ [insertToRow (createdAt rows.length) (mediaItemToSupabase item)])
      refine ⟨?_, ?_⟩
      · rw [ih1, List.filter_cons, if_pos ha]
        simp only [List.length_cons]
        omega
      · rw [ih2, List.filter_cons, if_pos ha]
        rw [List.map_append, List.map_cons]
        rw [show rowKey (insertToRow (createdAt rows.length) (mediaItemToSupabase item)) =
              itemKey item from rfl]
        simp
    · rw [show migrationStep accepts createdAt (c, rows) item = (c, rows)
          from by simp [migrationStep, ha]]
      obtain ⟨ih1, ih2⟩ := ih c rows
      refine ⟨?_, ?_⟩
      · rw [ih1, List.filter_cons, if_neg (by simp [ha])]
      · rw [ih2, List.filter_cons, if_neg (by simp [ha])]

/-- C3: an authenticated migration attempts every guest item in order (the
failure of one insert never aborts the loop), returns the count of items the
remote accepted (between 0 and N), and after the final re-hydrating fetch the
local cache holds exactly the identity keys present in the remote table — the
rejected items are gone from the visible collection.  With no guest items it
returns 0 immediately, without touching the remote or the local state. -/
theorem C3_migration_best_effort (accepts : MediaItem → Bool)
    (initialRows : List UserMediaRow) (createdAt : Nat → String)
    (gen : Nat → Int) (s : LocalState) :
    ∃ out : MigrationOutcome,
      migrateGuestDataToSupabase true accepts initialRows createdAt gen s = .ok out ∧
      out.attempted = (allItems s.store).map mediaItemToSupabase ∧
      out.migrated = ((allItems s.store).filter accepts).length ∧
      out.migrated ≤ (allItems s.store).length ∧
      (allItems s.store = [] →
        out = { migrated := 0, attempted := [], remoteRows := initialRows,
                fetched := false, state := s }) ∧
      (allItems s.store ≠ [] →
        out.fetched = true ∧
        out.remoteRows.map rowKey =
          initialRows.map rowKey ++ ((allItems s.store).filter accepts).map itemKey ∧
        out.state = loadFromSupabase true (.ok out.remoteRows) gen s ∧
        (∀ k, k ∈ storeKeys out.state.store ↔ k ∈ out.remoteRows.map rowKey)) := by
  by_cases hempty : allItems s.store = []
  · refine ⟨{ migrated := 0, attempted := [], remoteRows := initialRows,
              fetched := false, state := s }, ?_, ?_, ?_, ?_, fun _ => rfl, ?_⟩
    · simp [migrateGuestDataToSupabase, hempty]
    · rw [hempty]; rfl
    · rw [hempty]; rfl
    · rw [hempty]; simp
    · intro hc; exact absurd hempty hc
  · have hlen : ¬ ((allItems s.store).length = 0) := by
      intro hc
      exact hempty (List.length_eq_zero.mp hc)
    obtain ⟨hc1, hc2⟩ := migrationFold_spec accepts createdAt (allItems s.store) 0 initialRows
    refine ⟨{ migrated := ((allItems s.store).foldl (migrationStep accepts createdAt)
                (0, initialRows)).1,
              attempted := (allItems s.store).map mediaItemToSupabase,
              remoteRows := ((allItems s.store).foldl (migrationStep accepts createdAt)
                (0, initialRows)).2,
              fetched := true,
              state := loadFromSupabase true
                (.ok ((allItems s.store).foldl (migrationStep accepts createdAt)
                  (0, initialRows)).2) gen s }, ?_, rfl, ?_, ?_, ?_, ?_⟩
    · simp [migrateGuestDataToSupabase, hlen]
    · simp only [hc1]
      omega
    · simp only [hc1]
      have hfl := (allItems s.store).length_filter_le accepts
      omega
    · intro hc; exact absurd hc hempty
    · intro _
      refine ⟨rfl, hc2, rfl, ?_⟩
      intro k
      rw [show (loadFromSupabase true
          (.ok ((allItems s.store).foldl (migrationStep accepts createdAt)
            (0, initialRows)).2) gen s).store =
          partitionRows gen ((allItems s.store).foldl (migrationStep accepts createdAt)
            (0, initialRows)).2 from rfl]
      exact mem_storeKeys_partitionRows gen _ k

/-- Witness for C3 at a concrete one-item guest collection with an
all-accepting remote. -/
theorem C3_migration_best_effort_witness :
    ∃ out : MigrationOutcome,
      migrateGuestDataToSupabase true (fun _ => true) []
        (fun _ => "2026-01-02") (fun _ => 0)
        { store := { want_to_watch := [sampleItem], watching := [], completed := [] },
          events := 0 } = .ok out ∧
      out.migrated = 1 ∧ out.fetched = true := by
  obtain ⟨out, h1, _, h3, _, _, h6⟩ := C3_migration_best_effort (fun _ => true) []
    (fun _ => "2026-01-02") (fun _ => 0)
    { store := { want_to_watch := [sampleItem], watching := [], completed := [] },
      events := 0 }
  refine ⟨out, h1, ?_, (h6 (by decide)).1⟩
  rw [h3]
  decide
